import Mathlib

/-! # firephone: phone-number verification client

A shallow embedding of the Go package `firephone` (`errors.go`, `models.go`,
`http.go`, `firephone.go`) together with the parts of the Go standard library
it calls (`strings`, `fmt`, `unicode/utf8`, `net/url`, `net/http`,
`encoding/json`) and of `github.com/pkg/errors`.  The standard library is
that of Go 1.22.

Go strings and byte slices are sequences of bytes; they are embedded as lists
of `Fin 256`.  Go's `int` status code is embedded as `Int`.  A Go `error`
is an `Option GoError`, `none` being `nil`.
-/

namespace Firephone

/-! ## Bytes and strings -/

/-- One byte of a Go string. -/
abbrev Byte := Fin 256

/-- Go `string` (and `[]byte`): a finite sequence of bytes. -/
abbrev GoString := List Byte

/-- The byte of an ASCII character of a source literal. -/
def charByte (c : Char) : Byte := Fin.ofNat c.toNat

/-- The bytes of an ASCII source literal. -/
def lit (s : String) : GoString := s.toList.map charByte

/-- Go `strings.HasPrefix`. -/
def HasPrefix : GoString → GoString → Bool
  | _, [] => true
  | [], _ :: _ => false
  | a :: s, b :: p => a == b && HasPrefix s p

/-- Go `strings.Contains`: some suffix of `s` starts with `substr`. -/
def Contains (s substr : GoString) : Bool :=
  HasPrefix s substr ||
    match s with
    | [] => false
    | _ :: t => Contains t substr

/-! ## fmt -/

/-- The verb `%d` of `fmt.Sprintf` on a non-negative number. -/
def formatNat (n : Nat) : GoString := (Nat.toDigits 10 n).map charByte

/-- The verb `%d` of `fmt.Sprintf` on an `int`. -/
def formatInt (i : Int) : GoString :=
  if i < 0 then charByte '-' :: formatNat i.natAbs else formatNat i.toNat

/-! ## errors.go -/

/-- Go `type ErrorCode string`. -/
abbrev ErrorCode := GoString

def ErrorCodeInvalidAPIKey : ErrorCode := lit "INVALID_KEY"
def ErrorCodeInvalidCaptchaKey : ErrorCode := lit "INVALID_CAPTCHA_KEY"
def ErrorCodeInvalidConfirmationCode : ErrorCode := lit "INVALID_CONFIRMATION_CODE"

/-- Go `type Err struct`. -/
structure Err where
  Message : GoString
  ErrorCode : ErrorCode
  deriving DecidableEq, Repr

/-- The dynamic types of the non-nil `error` values the package handles:
`*Err` of this package, the `*fundamental` of `errors.New` and `errors.Errorf`,
the wrapper of `errors.Wrap`, and an error of any other type, which is one
the standard library or the transport made.  Of such an error only the name
of its Go type is kept, `*json.SyntaxError` for one; its text is not
modelled.  A `*Err` is never a nil pointer here: the package makes each with
`&Err{...}`. -/
inductive GoError where
  | typed (e : Err)
  | fundamental (msg : GoString)
  | wrapped (cause : GoError) (msg : GoString)
  | stdlib (dynamicType : GoString)
  deriving DecidableEq, Repr

/-- Go `error`: `none` is `nil`. -/
abbrev error := Option GoError

deriving instance DecidableEq for Except

/-- Go `func (m *Err) Error() string`. -/
def Err.Error (m : Err) : GoString := m.Message

/-- The method `Error() string` of each error type: `(*Err).Error` of this
package, the message of a `*fundamental`, and `msg + ": " + cause.Error()`
for the wrapper of `errors.Wrap`.  It is `none` where the text is not
modelled, on an error of another type and on a wrapper of one. -/
def GoError.Error : GoError → Option GoString
  | .typed e => some e.Error
  | .fundamental msg => some msg
  | .wrapped cause msg => cause.Error.map fun c => msg ++ lit ": " ++ c
  | .stdlib _ => none

/-- Go `func IsErrorType(err error, errCode ErrorCode) bool`: the type
assertion `err.(*Err)` succeeds on a `*Err` only. -/
def IsErrorType (err : error) (errCode : ErrorCode) : Bool :=
  match err with
  | some (.typed serr) => if serr.ErrorCode = errCode then true else false
  | _ => false

/-! ## firephone.go: the response classifier -/

def StatusOK : Int := 200
def StatusBadRequest : Int := 400
def StatusForbidden : Int := 403

/-- Go `func validateResponse(statusCode int, response string) error`. -/
def validateResponse (statusCode : Int) (response : GoString) : error :=
  if statusCode = StatusForbidden then
    some (.typed {
      Message := lit "validateResponse: Forbidden (" ++ formatInt statusCode ++
        lit "), likely missing key. body: " ++ response
      ErrorCode := ErrorCodeInvalidAPIKey })
  else if statusCode = StatusBadRequest && Contains response (lit "CAPTCHA_CHECK_FAILED") then
    some (.typed {
      Message := lit "validateResponse: Bad request (" ++ formatInt statusCode ++
        lit "), captcha verification failed. body: " ++ response
      ErrorCode := ErrorCodeInvalidCaptchaKey })
  else if statusCode = StatusBadRequest && Contains response (lit "INVALID_CODE") then
    some (.typed {
      Message := lit "validateResponse: Bad request (" ++ formatInt statusCode ++
        lit "), invalid confirmation code. body: " ++ response
      ErrorCode := ErrorCodeInvalidConfirmationCode })
  else if statusCode ≠ StatusOK then
    some (.fundamental (lit "validateResponse: Unexpected error, received (" ++
      formatInt statusCode ++ lit "). body: " ++ response))
  else
    none

/-! ## unicode/utf8 and unicode -/

/-- Go `utf8.RuneError`, U+FFFD. -/
def RuneError : Nat := 0xFFFD

/-- Go `utf8.RuneSelf`: bytes below it are single-byte runes. -/
def RuneSelf : Nat := 0x80

/-- Go `utf8.DecodeRune` (and `DecodeRuneInString`): the first rune of `p` and
its width in bytes; `(RuneError, 1)` on an invalid encoding and
`(RuneError, 0)` on the empty input.  The table `first` and the accept ranges
are written out as comparisons; `p0 & mask` is `% 2^k`, `<< k` is `* 2^k` and
`|` of disjoint bit fields is `+`. -/
def DecodeRune (p : GoString) : Nat × Nat :=
  match p with
  | [] => (RuneError, 0)
  | p0 :: rest =>
    if p0.val < RuneSelf then (p0.val, 1)
    else if p0.val < 0xC2 ∨ 0xF4 < p0.val then (RuneError, 1)
    else
      let sz : Nat := if p0.val < 0xE0 then 2 else if p0.val < 0xF0 then 3 else 4
      let lo : Nat := if p0.val = 0xE0 then 0xA0 else if p0.val = 0xF0 then 0x90 else 0x80
      let hi : Nat := if p0.val = 0xED then 0x9F else if p0.val = 0xF4 then 0x8F else 0xBF
      if rest.length + 1 < sz then (RuneError, 1)
      else
        match rest with
        | [] => (RuneError, 1)
        | b1 :: rest1 =>
          if b1.val < lo ∨ hi < b1.val then (RuneError, 1)
          else if sz ≤ 2 then ((p0.val % 32) * 64 + b1.val % 64, 2)
          else
            match rest1 with
            | [] => (RuneError, 1)
            | b2 :: rest2 =>
              if b2.val < 0x80 ∨ 0xBF < b2.val then (RuneError, 1)
              else if sz ≤ 3 then
                ((p0.val % 16) * 4096 + (b1.val % 64) * 64 + b2.val % 64, 3)
              else
                match rest2 with
                | [] => (RuneError, 1)
                | b3 :: _ =>
                  if b3.val < 0x80 ∨ 0xBF < b3.val then (RuneError, 1)
                  else
                    ((p0.val % 8) * 262144 + (b1.val % 64) * 4096 +
                      (b2.val % 64) * 64 + b3.val % 64, 4)

/-- Go `utf8.EncodeRune` (and `AppendRune`): the UTF-8 encoding of a rune;
surrogates and runes above U+10FFFF encode as U+FFFD. -/
def EncodeRune (r : Nat) : GoString :=
  if r ≤ 0x7F then [Fin.ofNat r]
  else if r ≤ 0x7FF then [Fin.ofNat (0xC0 + r / 64), Fin.ofNat (0x80 + r % 64)]
  else if 0x10FFFF < r ∨ (0xD800 ≤ r ∧ r ≤ 0xDFFF) then [0xEF, 0xBF, 0xBD]
  else if r ≤ 0xFFFF then
    [Fin.ofNat (0xE0 + r / 4096), Fin.ofNat (0x80 + r / 64 % 64), Fin.ofNat (0x80 + r % 64)]
  else
    [Fin.ofNat (0xF0 + r / 262144), Fin.ofNat (0x80 + r / 4096 % 64),
      Fin.ofNat (0x80 + r / 64 % 64), Fin.ofNat (0x80 + r % 64)]

/-- Go `strings.Cut` with a one-byte separator: the text before and after the
first `sep`, and whether `sep` occurs. -/
def Cut (s : GoString) (sep : Byte) : GoString × GoString × Bool :=
  match s with
  | [] => ([], [], false)
  | c :: t =>
    if c = sep then ([], t, true)
    else
      let r := Cut t sep
      (c :: r.1, r.2.1, r.2.2)

/-- Go `type encoding int` of `net/url`. -/
inductive encoding where
  | encodePath
  | encodePathSegment
  | encodeHost
  | encodeZone
  | encodeUserPassword
  | encodeQueryComponent
  | encodeFragment
  deriving DecidableEq, Repr

/-- An error of type `url.EscapeError`. -/
def EscapeError : GoError := .stdlib (lit "url.EscapeError")

/-- An error of type `url.InvalidHostError`. -/
def InvalidHostError : GoError := .stdlib (lit "url.InvalidHostError")

/-- ASCII letters and digits. -/
def isAlnum (c : Byte) : Bool :=
  (0x61 ≤ c.val ∧ c.val ≤ 0x7A) ∨ (0x41 ≤ c.val ∧ c.val ≤ 0x5A) ∨ (0x30 ≤ c.val ∧ c.val ≤ 0x39)

/-- Go `shouldEscape` of `net/url`. -/
def shouldEscape (c : Byte) (mode : encoding) : Bool :=
  if isAlnum c then false
  else if (mode = .encodeHost ∨ mode = .encodeZone) ∧
      c ∈ lit "!$&'()*+,;=:[]<>\"" then false
  else if c ∈ lit "-_.~" then false
  else if c ∈ lit "$&+,/:;=?@" then
    match mode with
    | .encodePath => c = charByte '?'
    | .encodePathSegment => c ∈ lit "/;,?"
    | .encodeUserPassword => c ∈ lit "@/?:"
    | .encodeQueryComponent => true
    | .encodeFragment => false
    | .encodeHost => true
    | .encodeZone => true
  else if mode = .encodeFragment ∧ c ∈ lit "!()*" then false
  else true

/-- Go `upperhex[n]`, the digits `0123456789ABCDEF`. -/
def upperhex (n : Nat) : Byte := if n < 10 then Fin.ofNat (0x30 + n) else Fin.ofNat (0x37 + n)

/-- Go `ishex`. -/
def ishex (c : Byte) : Bool :=
  (0x30 ≤ c.val ∧ c.val ≤ 0x39) ∨ (0x61 ≤ c.val ∧ c.val ≤ 0x66) ∨ (0x41 ≤ c.val ∧ c.val ≤ 0x46)

/-- Go `unhex`. -/
def unhex (c : Byte) : Nat :=
  if 0x30 ≤ c.val ∧ c.val ≤ 0x39 then c.val - 0x30
  else if 0x61 ≤ c.val ∧ c.val ≤ 0x66 then c.val - 0x61 + 10
  else if 0x41 ≤ c.val ∧ c.val ≤ 0x46 then c.val - 0x41 + 10
  else 0

/-- Go `escape` of `net/url`: a space of a query component becomes `+`, every
other byte that `shouldEscape` names becomes `%XX`. -/
def escape (s : GoString) (mode : encoding) : GoString :=
  match s with
  | [] => []
  | c :: t =>
    if c = charByte ' ' ∧ mode = .encodeQueryComponent then charByte '+' :: escape t mode
    else if shouldEscape c mode then
      charByte '%' :: upperhex (c.val / 16) :: upperhex (c.val % 16) :: escape t mode
    else c :: escape t mode

/-- Go `unescape` of `net/url`: `%XX` is decoded, `+` is a space in a query
component; a malformed `%`, an escaped ASCII byte in a host, an escaped byte
in a zone that a host cannot hold, or a host byte that must be escaped is an
error, the first of them from the left. -/
def unescape (s : GoString) (mode : encoding) : Except GoError GoString :=
  match s with
  | [] => .ok []
  | c :: t =>
    if c = charByte '%' then
      match t with
      | h1 :: h2 :: r =>
        if !(ishex h1 && ishex h2) then .error EscapeError
        else if mode = .encodeHost ∧ unhex h1 < 8 ∧ [h1, h2] ≠ lit "25" then
          .error EscapeError
        else if mode = .encodeZone ∧ [h1, h2] ≠ lit "25" ∧
            unhex h1 * 16 + unhex h2 ≠ 0x20 ∧
            shouldEscape (Fin.ofNat (unhex h1 * 16 + unhex h2)) .encodeHost then
          .error EscapeError
        else
          match unescape r mode with
          | .ok u => .ok (Fin.ofNat (unhex h1 * 16 + unhex h2) :: u)
          | .error e => .error e
      | _ => .error EscapeError
    else if (mode = .encodeHost ∨ mode = .encodeZone) ∧ c.val < 0x80 ∧
        shouldEscape c .encodeHost then
      .error InvalidHostError
    else
      match unescape t mode with
      | .ok u =>
        .ok ((if c = charByte '+' ∧ mode = .encodeQueryComponent then charByte ' ' else c) :: u)
      | .error e => .error e

/-- Go `url.Values`, a `map[string][]string`, as an association list with one
entry for each key. -/
abbrev Values := List (GoString × List GoString)

/-- Go `func (v Values) Add(key, value string)`: `v[key] = append(v[key], value)`. -/
def Values.Add (v : Values) (key value : GoString) : Values :=
  match v with
  | [] => [(key, [value])]
  | (k, vs) :: r => if k = key then (k, vs ++ [value]) :: r else (k, vs) :: Values.Add r key value

/-- Go `type Userinfo struct` of `net/url`. -/
structure Userinfo where
  username : GoString := []
  password : GoString := []
  passwordSet : Bool := false
  deriving DecidableEq, Repr

/-- Go `func (u *Userinfo) String() string`. -/
def Userinfo.String (u : Userinfo) : GoString :=
  escape u.username .encodeUserPassword ++
    (if u.passwordSet then charByte ':' :: escape u.password .encodeUserPassword else [])

/-- Go `type URL struct` of `net/url`; a `nil` field `User` is `none`. -/
structure URL where
  Scheme : GoString := []
  Opaque : GoString := []
  User : Option Userinfo := none
  Host : GoString := []
  Path : GoString := []
  RawPath : GoString := []
  OmitHost : Bool := false
  ForceQuery : Bool := false
  RawQuery : GoString := []
  Fragment : GoString := []
  RawFragment : GoString := []
  deriving DecidableEq, Repr

/-- Go `validEncoded` of `net/url`. -/
def validEncoded (s : GoString) (mode : encoding) : Bool :=
  s.all fun c => c ∈ lit "!$&'()*+,;=:@[]%" || !shouldEscape c mode

/-- Go `func (u *URL) EscapedPath() string`. -/
def URL.EscapedPath (u : URL) : GoString :=
  if u.RawPath ≠ [] ∧ validEncoded u.RawPath .encodePath ∧
      unescape u.RawPath .encodePath = .ok u.Path then u.RawPath
  else if u.Path = lit "*" then lit "*"
  else escape u.Path .encodePath

/-- Go `func (u *URL) EscapedFragment() string`. -/
def URL.EscapedFragment (u : URL) : GoString :=
  if u.RawFragment ≠ [] ∧ validEncoded u.RawFragment .encodeFragment ∧
      unescape u.RawFragment .encodeFragment = .ok u.Fragment then u.RawFragment
  else escape u.Fragment .encodeFragment

/-- Go `func (u *URL) String() string`. -/
def URL.String (u : URL) : GoString :=
  let scheme := if u.Scheme ≠ [] then u.Scheme ++ lit ":" else []
  let body :=
    if u.Opaque ≠ [] then u.Opaque
    else
      let auth :=
        if u.Scheme ≠ [] ∨ u.Host ≠ [] ∨ u.User ≠ none then
          if u.OmitHost ∧ u.Host = [] ∧ u.User = none then []
          else
            (if u.Host ≠ [] ∨ u.Path ≠ [] ∨ u.User ≠ none then lit "//" else []) ++
              (match u.User with
                | some ui => ui.String ++ lit "@"
                | none => []) ++
              escape u.Host .encodeHost
        else []
      let path := u.EscapedPath
      let slash := if path ≠ [] ∧ path.head? ≠ some (charByte '/') ∧ u.Host ≠ [] then lit "/" else []
      let dot :=
        if scheme ++ auth ++ slash = [] ∧ (Cut path (charByte '/')).1.contains (charByte ':')
        then lit "./"
        else []
      auth ++ slash ++ dot ++ path
  let query := if u.ForceQuery ∨ u.RawQuery ≠ [] then charByte '?' :: u.RawQuery else []
  let frag := if u.Fragment ≠ [] then charByte '#' :: u.EscapedFragment else []
  scheme ++ body ++ query ++ frag

/-! ## net/http -/

/-- Go `validHeaderFieldByte`: the token characters of RFC 7230. -/
def validHeaderFieldByte (c : Byte) : Bool :=
  isAlnum c || c ∈ lit "!#$%&'*+-.^_|~" || c.val = 0x60

/-- The loop of Go `canonicalMIMEHeaderKey`: a letter is upper case at the
start and after `-`, lower case elsewhere. -/
def canonicalAux (upper : Bool) : GoString → GoString
  | [] => []
  | c :: t =>
    (if upper ∧ 0x61 ≤ c.val ∧ c.val ≤ 0x7A then Fin.ofNat (c.val - 0x20)
      else if !upper ∧ 0x41 ≤ c.val ∧ c.val ≤ 0x5A then Fin.ofNat (c.val + 0x20)
      else c) :: canonicalAux (c = charByte '-') t

/-- Go `textproto.CanonicalMIMEHeaderKey`: a key with a byte that is not a
token character is left as it is. -/
def CanonicalMIMEHeaderKey (s : GoString) : GoString :=
  if s.all validHeaderFieldByte then canonicalAux true s else s

/-- Go `http.Header`, a `map[string][]string`. -/
abbrev Header := Values

/-- Go `func (h Header) Add(key, value string)`. -/
def Header.Add (h : Header) (key value : GoString) : Header :=
  Values.Add h (CanonicalMIMEHeaderKey key) value

/-- A JSON value as `encoding/json` scans it; a number keeps its text. -/
inductive JSONValue where
  | null
  | bool (b : Bool)
  | number (raw : GoString)
  | string (s : GoString)
  | array (items : List JSONValue)
  | object (members : List (GoString × JSONValue))

/-- Go `isSpace` of the JSON scanner. -/
def isJSONSpace (c : Byte) : Bool := c.val = 0x20 || c.val = 0x09 || c.val = 0x0D || c.val = 0x0A

/-- The input after its leading JSON white space. -/
def skipSpace (s : GoString) : GoString := s.dropWhile isJSONSpace

/-- The byte an escape `\c` of a JSON string stands for, `\u` apart. -/
def simpleEscape (c : Byte) : Option Byte :=
  if c = charByte '"' ∨ c = charByte '\\' ∨ c = charByte '/' then some c
  else if c = charByte 'b' then some 0x08
  else if c = charByte 'f' then some 0x0C
  else if c = charByte 'n' then some 0x0A
  else if c = charByte 'r' then some 0x0D
  else if c = charByte 't' then some 0x09
  else none

/-- The value of the four hexadecimal digits of `\uXXXX`, as Go `getu4`. -/
def getu4 (h1 h2 h3 h4 : Byte) : Option Nat :=
  if ishex h1 && ishex h2 && ishex h3 && ishex h4 then
    some (unhex h1 * 4096 + unhex h2 * 256 + unhex h3 * 16 + unhex h4)
  else none

/-- Go `utf16.IsSurrogate`. -/
def IsSurrogate (r : Nat) : Bool := 0xD800 ≤ r && r < 0xE000

/-- Go `utf16.DecodeRune`: the rune of a surrogate pair, U+FFFD if the pair
is not valid. -/
def utf16DecodeRune (r1 r2 : Nat) : Nat :=
  if 0xD800 ≤ r1 ∧ r1 < 0xDC00 ∧ 0xDC00 ≤ r2 ∧ r2 < 0xE000 then
    (r1 - 0xD800) * 1024 + (r2 - 0xDC00) + 0x10000
  else RuneError

/-- The escape of a JSON string after its backslash, as the scanner accepts
it and Go `unquote` decodes it: the bytes it stands for and the number of
input bytes it takes.  A `\\u` escape of a surrogate that is not followed
by the escape of its partner stands for U+FFFD. -/
def unquoteEscape (t : GoString) : Option (GoString × Nat) :=
  match t with
  | [] => none
  | e :: t1 =>
    if e = charByte 'u' then
      match t1 with
      | h1 :: h2 :: h3 :: h4 :: t2 =>
        match getu4 h1 h2 h3 h4 with
        | none => none
        | some rr =>
          if IsSurrogate rr then
            match t2 with
            | b1 :: b2 :: g1 :: g2 :: g3 :: g4 :: _ =>
              if b1 = charByte '\\' ∧ b2 = charByte 'u' ∧
                  (getu4 g1 g2 g3 g4).any (fun rr1 => utf16DecodeRune rr rr1 ≠ RuneError) then
                some (EncodeRune (utf16DecodeRune rr ((getu4 g1 g2 g3 g4).getD 0)), 11)
              else some (EncodeRune RuneError, 5)
            | _ => some (EncodeRune RuneError, 5)
          else some (EncodeRune rr, 5)
      | _ => none
    else (simpleEscape e).map fun b => ([b], 1)

/-- A JSON string literal after its opening quote: the scanner states
`stateInString`, `stateInStringEsc` and `stateInStringEscU` together with Go
`unquote`.  The result is the Go string the literal denotes and the input
after the closing quote; `none` is a syntax error.  `skip` counts the bytes
still to be passed over of an escape or a multi-byte rune that is already
decoded. -/
def parseStringBody (skip : Nat) : GoString → Option (GoString × GoString)
  | [] => none
  | c :: t =>
    match skip with
    | k + 1 => parseStringBody k t
    | 0 =>
      if c = charByte '"' then some ([], t)
      else if c = charByte '\\' then
        match unquoteEscape t with
        | none => none
        | some (out, n) => (parseStringBody n t).map fun r => (out ++ r.1, r.2)
      else if c.val < 0x20 then none
      else if c.val < RuneSelf then (parseStringBody 0 t).map fun r => (c :: r.1, r.2)
      else
        (parseStringBody ((DecodeRune (c :: t)).2 - 1) t).map fun r =>
          (EncodeRune (DecodeRune (c :: t)).1 ++ r.1, r.2)

/-- Decimal digit. -/
def isDigit (c : Byte) : Bool := 0x30 ≤ c.val && c.val ≤ 0x39

/-- The input after a non-empty run of digits. -/
def skipDigits1 (s : GoString) : Option GoString :=
  match s with
  | c :: t => if isDigit c then some (t.dropWhile isDigit) else none
  | [] => none

/-- The input after a JSON number, as the scanner states `stateNeg` to
`stateE0` accept it: `-? (0 | [1-9][0-9]*) (. [0-9]+)? ([eE] [+-]? [0-9]+)?`. -/
def skipNumber (s : GoString) : Option GoString :=
  let s1 := match s with
    | c :: t => if c = charByte '-' then t else s
    | [] => s
  let s2 : Option GoString := match s1 with
    | c :: t => if c = charByte '0' then some t else skipDigits1 s1
    | [] => none
  let s3 : Option GoString := s2.bind fun r =>
    match r with
    | c :: t => if c = charByte '.' then skipDigits1 t else some r
    | [] => some r
  s3.bind fun r =>
    match r with
    | c :: t =>
      if c = charByte 'e' ∨ c = charByte 'E' then
        match t with
        | g :: t1 => if g = charByte '+' ∨ g = charByte '-' then skipDigits1 t1 else skipDigits1 t
        | [] => none
      else some r
    | [] => some r

/-- Go `maxNestingDepth` of the JSON scanner. -/
def maxNestingDepth : Nat := 10000

mutual

/-- One JSON value at the head of the input (no leading white space) and the
input after it; `none` is a syntax error.  `depth` is the number of arrays
and objects around it.  The fuel bounds the number of nested calls; with the
fuel of `parseJSON` it runs out only where fewer bytes are left than arrays
and objects are open, so only on a text that is not JSON. -/
def parseValue : Nat → Nat → GoString → Option (JSONValue × GoString)
  | 0, _, _ => none
  | _ + 1, _, [] => none
  | fuel + 1, depth, c :: t =>
    if c = charByte '{' then
      if maxNestingDepth ≤ depth then none
      else
        match skipSpace t with
        | [] => none
        | d :: r =>
          if d = charByte '}' then some (.object [], r)
          else (parseMembers fuel (depth + 1) (d :: r)).map fun m => (.object m.1, m.2)
    else if c = charByte '[' then
      if maxNestingDepth ≤ depth then none
      else
        match skipSpace t with
        | [] => none
        | d :: r =>
          if d = charByte ']' then some (.array [], r)
          else (parseElements fuel (depth + 1) (d :: r)).map fun m => (.array m.1, m.2)
    else if c = charByte '"' then (parseStringBody 0 t).map fun r => (.string r.1, r.2)
    else if HasPrefix (c :: t) (lit "true") then some (.bool true, t.drop 3)
    else if HasPrefix (c :: t) (lit "false") then some (.bool false, t.drop 4)
    else if HasPrefix (c :: t) (lit "null") then some (.null, t.drop 3)
    else
      (skipNumber (c :: t)).map fun r =>
        (.number ((c :: t).take ((c :: t).length - r.length)), r)

/-- The members of an object from its first key on, up to the closing
brace. -/
def parseMembers : Nat → Nat → GoString → Option (List (GoString × JSONValue) × GoString)
  | 0, _, _ => none
  | _ + 1, _, [] => none
  | fuel + 1, depth, c :: t =>
    if c = charByte '"' then
      match parseStringBody 0 t with
      | none => none
      | some (key, r) =>
        match skipSpace r with
        | [] => none
        | d :: r1 =>
          if d = charByte ':' then
            match parseValue fuel depth (skipSpace r1) with
            | none => none
            | some (v, r2) =>
              match skipSpace r2 with
              | [] => none
              | e :: r3 =>
                if e = charByte '}' then some ([(key, v)], r3)
                else if e = charByte ',' then
                  (parseMembers fuel depth (skipSpace r3)).map fun m => ((key, v) :: m.1, m.2)
                else none
          else none
    else none

/-- The elements of an array from its first element on, up to the closing
bracket. -/
def parseElements : Nat → Nat → GoString → Option (List JSONValue × GoString)
  | 0, _, _ => none
  | fuel + 1, depth, s =>
    match parseValue fuel depth s with
    | none => none
    | some (v, r) =>
      match skipSpace r with
      | [] => none
      | e :: r1 =>
        if e = charByte ']' then some ([v], r1)
        else if e = charByte ',' then
          (parseElements fuel depth (skipSpace r1)).map fun m => (v :: m.1, m.2)
        else none

end

theorem hasPrefix_iff (s p : GoString) : HasPrefix s p = true ↔ p <+: s := by
  induction p generalizing s with
  | nil => simp [HasPrefix]
  | cons b p ih =>
    cases s with
    | nil => simp [HasPrefix]
    | cons a s =>
      simp only [HasPrefix, Bool.and_eq_true, beq_iff_eq, ih, List.cons_prefix_cons]
      constructor
      · rintro ⟨h1, h2⟩; exact ⟨h1.symm, h2⟩
      · rintro ⟨h1, h2⟩; exact ⟨h1.symm, h2⟩

theorem contains_iff (s sub : GoString) : Contains s sub = true ↔ sub <:+: s := by
  induction s with
  | nil =>
    unfold Contains
    simp [hasPrefix_iff]
  | cons a s ih =>
    unfold Contains
    simp only [Bool.or_eq_true, hasPrefix_iff, ih, List.infix_cons_iff]

theorem contains_append_left (s t sub : GoString) (h : sub <:+: s) :
    sub <:+: s ++ t :=
  h.trans (List.infix_append' [] s t |>.trans (by simp))

/-! ## Helper lemmas: decimal numerals -/

theorem lit_append (a b : String) : lit (a ++ b) = lit a ++ lit b := by
  simp [lit, String.toList]

/-- The verb `%d` on a natural number writes its decimal numeral. -/
theorem formatNat_eq (n : Nat) : formatNat n = lit (toString n) := rfl

/-- The verb `%d` writes the decimal numeral of an integer, with `-` in front
of a negative one. -/
theorem formatInt_eq (i : Int) : formatInt i = lit (toString i) := by
  cases i with
  | ofNat n =>
    have h : ¬ (Int.ofNat n < 0) := by simp
    simp only [formatInt, if_neg h]
    show formatNat n = lit (toString n)
    exact formatNat_eq n
  | negSucc n =>
    have h : Int.negSucc n < 0 := Int.negSucc_lt_zero n
    simp only [formatInt, if_pos h]
    show charByte '-' :: formatNat (n + 1) = lit ("-" ++ toString (n + 1))
    rw [lit_append, formatNat_eq]
    rfl

/-! ## The response classifier: claims C1 to C5 -/

theorem contains_eq_false_iff (s sub : GoString) : Contains s sub = false ↔ ¬ sub <:+: s := by
  rw [← contains_iff]; simp

/-- C1: for every body, also one that holds `CAPTCHA_CHECK_FAILED` or
`INVALID_CODE`, `validateResponse(403, body)` is a non-nil `*Err` whose
`ErrorCode` is `ErrorCodeInvalidAPIKey`, the string `INVALID_KEY`, so that
`IsErrorType(result, ErrorCodeInvalidAPIKey)` is true. -/
theorem validateResponse_forbidden (body : GoString) :
    ∃ e : Err, validateResponse 403 body = some (.typed e) ∧
      e.ErrorCode = ErrorCodeInvalidAPIKey ∧ e.ErrorCode = lit "INVALID_KEY" ∧
      IsErrorType (validateResponse 403 body) ErrorCodeInvalidAPIKey = true := by
  have hv : validateResponse 403 body = some (.typed {
      Message := lit "validateResponse: Forbidden (" ++ formatInt 403 ++
        lit "), likely missing key. body: " ++ body
      ErrorCode := ErrorCodeInvalidAPIKey }) := by
    simp [validateResponse, StatusForbidden]
  exact ⟨_, hv, rfl, rfl, by rw [hv]; simp [IsErrorType]⟩

/-- C2: for every body that contains `CAPTCHA_CHECK_FAILED`, whether or not
it also contains `INVALID_CODE`, `validateResponse(400, body)` is a `*Err`
whose `ErrorCode` is `ErrorCodeInvalidCaptchaKey`. -/
theorem validateResponse_captcha (body : GoString)
    (h : lit "CAPTCHA_CHECK_FAILED" <:+: body) :
    ∃ e : Err, validateResponse 400 body = some (.typed e) ∧
      e.ErrorCode = ErrorCodeInvalidCaptchaKey ∧
      IsErrorType (validateResponse 400 body) ErrorCodeInvalidCaptchaKey = true := by
  have hc : Contains body (lit "CAPTCHA_CHECK_FAILED") = true := (contains_iff _ _).2 h
  have hv : validateResponse 400 body = some (.typed {
      Message := lit "validateResponse: Bad request (" ++ formatInt 400 ++
        lit "), captcha verification failed. body: " ++ body
      ErrorCode := ErrorCodeInvalidCaptchaKey }) := by
    simp [validateResponse, StatusForbidden, StatusBadRequest, hc]
  exact ⟨_, hv, rfl, by rw [hv]; simp [IsErrorType]⟩

/-- C2, witness: a body that holds both signatures. -/
theorem validateResponse_captcha_witness :
    lit "CAPTCHA_CHECK_FAILED" <:+: lit "x INVALID_CODE CAPTCHA_CHECK_FAILED y" ∧
    lit "INVALID_CODE" <:+: lit "x INVALID_CODE CAPTCHA_CHECK_FAILED y" ∧
    ∃ e : Err, validateResponse 400 (lit "x INVALID_CODE CAPTCHA_CHECK_FAILED y") =
        some (.typed e) ∧ e.ErrorCode = ErrorCodeInvalidCaptchaKey ∧
      IsErrorType (validateResponse 400 (lit "x INVALID_CODE CAPTCHA_CHECK_FAILED y"))
        ErrorCodeInvalidCaptchaKey = true :=
  ⟨⟨lit "x INVALID_CODE ", lit " y", by decide⟩, ⟨lit "x ", lit " CAPTCHA_CHECK_FAILED y", by decide⟩,
    validateResponse_captcha _ ⟨lit "x INVALID_CODE ", lit " y", by decide⟩⟩

/-- C3, as stated, fails: the body `CAPTCHA_CHECK_FAILED INVALID_CODE`
contains `INVALID_CODE`, and `validateResponse(400, body)` is a `*Err` with
`ErrorCodeInvalidCaptchaKey`, not `ErrorCodeInvalidConfirmationCode`. -/
theorem validateResponse_code_counterexample :
    lit "INVALID_CODE" <:+: lit "CAPTCHA_CHECK_FAILED INVALID_CODE" ∧
    (∃ e : Err, validateResponse 400 (lit "CAPTCHA_CHECK_FAILED INVALID_CODE") =
        some (.typed e) ∧ e.ErrorCode = ErrorCodeInvalidCaptchaKey) ∧
    ¬ ∃ e : Err, validateResponse 400 (lit "CAPTCHA_CHECK_FAILED INVALID_CODE") =
        some (.typed e) ∧ e.ErrorCode = ErrorCodeInvalidConfirmationCode := by
  have hv : validateResponse 400 (lit "CAPTCHA_CHECK_FAILED INVALID_CODE") = some (.typed {
      Message := lit "validateResponse: Bad request (400), captcha verification failed. body: CAPTCHA_CHECK_FAILED INVALID_CODE"
      ErrorCode := ErrorCodeInvalidCaptchaKey }) := by decide
  refine ⟨⟨lit "CAPTCHA_CHECK_FAILED ", [], by decide⟩, ⟨_, hv, rfl⟩, ?_⟩
  rintro ⟨e, he, hcode⟩
  rw [hv] at he
  cases he
  revert hcode
  decide

/-- C3, amended: for every body that contains `INVALID_CODE` and does not
contain `CAPTCHA_CHECK_FAILED`, `validateResponse(400, body)` is a `*Err`
whose `ErrorCode` is `ErrorCodeInvalidConfirmationCode`. -/
theorem validateResponse_code (body : GoString)
    (h : lit "INVALID_CODE" <:+: body) (hno : ¬ lit "CAPTCHA_CHECK_FAILED" <:+: body) :
    ∃ e : Err, validateResponse 400 body = some (.typed e) ∧
      e.ErrorCode = ErrorCodeInvalidConfirmationCode ∧
      IsErrorType (validateResponse 400 body) ErrorCodeInvalidConfirmationCode = true := by
  have hc : Contains body (lit "INVALID_CODE") = true := (contains_iff _ _).2 h
  have hn : Contains body (lit "CAPTCHA_CHECK_FAILED") = false :=
    (contains_eq_false_iff _ _).2 hno
  have hv : validateResponse 400 body = some (.typed {
      Message := lit "validateResponse: Bad request (" ++ formatInt 400 ++
        lit "), invalid confirmation code. body: " ++ body
      ErrorCode := ErrorCodeInvalidConfirmationCode }) := by
    simp [validateResponse, StatusForbidden, StatusBadRequest, hc, hn]
  exact ⟨_, hv, rfl, by rw [hv]; simp [IsErrorType]⟩

/-- C3, amended, witness. -/
theorem validateResponse_code_witness :
    lit "INVALID_CODE" <:+: lit "error: INVALID_CODE" ∧
    ¬ lit "CAPTCHA_CHECK_FAILED" <:+: lit "error: INVALID_CODE" ∧
    ∃ e : Err, validateResponse 400 (lit "error: INVALID_CODE") = some (.typed e) ∧
      e.ErrorCode = ErrorCodeInvalidConfirmationCode ∧
      IsErrorType (validateResponse 400 (lit "error: INVALID_CODE"))
        ErrorCodeInvalidConfirmationCode = true :=
  ⟨⟨lit "error: ", [], by decide⟩, by decide,
    validateResponse_code _ ⟨lit "error: ", [], by decide⟩ (by decide)⟩

/-- C4: for every status other than 200 and 403 and every body, unless the
status is 400 and the body contains `CAPTCHA_CHECK_FAILED` or `INVALID_CODE`,
`validateResponse` returns a non-nil error that is not a `*Err`, for which
`IsErrorType` is false at every code, and whose message is
`validateResponse: Unexpected error, received (<status>). body: <body>`
with the status as a decimal numeral, so that its message contains the
decimal status code and the raw body. -/
theorem validateResponse_unclassified (s : Int) (b : GoString)
    (h200 : s ≠ 200) (h403 : s ≠ 403)
    (hsig : ¬ (s = 400 ∧
      (lit "CAPTCHA_CHECK_FAILED" <:+: b ∨ lit "INVALID_CODE" <:+: b))) :
    ∃ e : GoError, validateResponse s b = some e ∧
      (∀ t : Err, e ≠ .typed t) ∧
      (∀ c : ErrorCode, IsErrorType (validateResponse s b) c = false) ∧
      IsErrorType (validateResponse s b) ErrorCodeInvalidAPIKey = false ∧
      IsErrorType (validateResponse s b) ErrorCodeInvalidCaptchaKey = false ∧
      IsErrorType (validateResponse s b) ErrorCodeInvalidConfirmationCode = false ∧
      e.Error = some (lit "validateResponse: Unexpected error, received (" ++
        lit (toString s) ++ lit "). body: " ++ b) ∧
      ∃ m : GoString, e.Error = some m ∧ lit (toString s) <:+: m ∧ b <:+: m := by
  have hv : validateResponse s b = some (.fundamental
      (lit "validateResponse: Unexpected error, received (" ++
        formatInt s ++ lit "). body: " ++ b)) := by
    unfold validateResponse
    rw [if_neg (by simpa [StatusForbidden] using h403)]
    by_cases h400 : s = 400
    · have h1 : Contains b (lit "CAPTCHA_CHECK_FAILED") = false :=
        (contains_eq_false_iff _ _).2 fun h => hsig ⟨h400, Or.inl h⟩
      have h2 : Contains b (lit "INVALID_CODE") = false :=
        (contains_eq_false_iff _ _).2 fun h => hsig ⟨h400, Or.inr h⟩
      simp [h1, h2, StatusOK, h200]
    · simp [StatusBadRequest, h400, StatusOK, h200]
  rw [formatInt_eq] at hv
  have hI : ∀ c : ErrorCode, IsErrorType (validateResponse s b) c = false := by
    intro c; rw [hv]; rfl
  refine ⟨_, hv, fun t => by simp, hI, hI _, hI _, hI _, rfl, _, rfl, ?_, ?_⟩
  · exact ⟨lit "validateResponse: Unexpected error, received (", lit "). body: " ++ b, by
      simp [List.append_assoc]⟩
  · exact ⟨lit "validateResponse: Unexpected error, received (" ++ lit (toString s) ++
      lit "). body: ", [], by simp [List.append_assoc]⟩

/-- C4, witness: status 400 with a body that holds neither signature; the
message holds the numeral `400` and the body. -/
theorem validateResponse_unclassified_witness :
    ∃ e : GoError, validateResponse 400 (lit "quota exceeded") = some e ∧
      (∀ t : Err, e ≠ .typed t) ∧
      (∀ c : ErrorCode, IsErrorType (validateResponse 400 (lit "quota exceeded")) c = false) ∧
      e.Error = some
        (lit "validateResponse: Unexpected error, received (400). body: quota exceeded") ∧
      ∃ m : GoString, e.Error = some m ∧ lit "400" <:+: m ∧ lit "quota exceeded" <:+: m := by
  obtain ⟨e, h1, h2, h3, _, _, _, h4, h5⟩ :=
    validateResponse_unclassified 400 (lit "quota exceeded") (by decide) (by decide)
      (by decide)
  exact ⟨e, h1, h2, h3, h4.trans (by decide), h5⟩

/-- C5: `validateResponse(200, body)` is nil for every body, whatever it
contains, and `validateResponse` is nil if and only if the status is 200. -/
theorem validateResponse_nil_iff (s : Int) (b : GoString) :
    validateResponse 200 b = none ∧ (validateResponse s b = none ↔ s = 200) := by
  have h200 : ∀ b : GoString, validateResponse 200 b = none := by
    intro b
    simp [validateResponse, StatusForbidden, StatusBadRequest, StatusOK]
  refine ⟨h200 b, ?_, fun h => h ▸ h200 b⟩
  intro h
  by_contra hne
  unfold validateResponse at h
  split_ifs at h
  all_goals simp_all [StatusOK]

/-! ## UTF-8 -/

end Firephone
